import Mathlib

/-!
Verification of the child-process supervision layer of Rickube (src/main.js).

The IPC handlers in `main.js` keep two module-level JS `Map`s:
`logProcesses : logId → ChildProcess` and
`portForwardProcesses : forwardId → {process, resourceType, name, namespace,
localPort, remotePort, startTime}`.  Each handler is embedded below as a pure
function from its inputs and the current registry state to a triple
`(trace, state', result)` where `trace` lists the externally visible effects
(shell commands issued, kill signals sent, events pushed to the renderer,
registry mutations) in program order.  Outcomes of external effects that the
JS code observes only through try/catch (the remote kill command, the local
`process.kill`) are supplied as boolean environment parameters and recorded
in the trace; the handlers' control flow never branches on them, exactly as
in the source where the catch blocks are empty.
-/

namespace Rickube

/-! ### JS `Map` model: insertion-ordered association list -/

/-- `Map.get(k)`: first (and, for genuine JS maps, only) binding of `k`. -/
def mapGet {α : Type} : List (String × α) → String → Option α
  | [], _ => none
  | p :: ps, k => if p.1 = k then some p.2 else mapGet ps k

/-- `Map.set(k, v)`: replace the binding of `k` in place, else append. -/
def mapSet {α : Type} : List (String × α) → String → α → List (String × α)
  | [], k, v => [(k, v)]
  | p :: ps, k, v => if p.1 = k then (k, v) :: ps else p :: mapSet ps k v

/-- `Map.delete(k)`: remove the binding of `k` (a JS map holds at most one). -/
def mapDelete {α : Type} (st : List (String × α)) (k : String) : List (String × α) :=
  st.filter (fun p => p.1 ≠ k)

theorem mapDelete_cons {α : Type} (p : String × α) (ps : List (String × α)) (k : String) :
    mapDelete (p :: ps) k =
      if p.1 = k then mapDelete ps k else p :: mapDelete ps k := by
  by_cases hp : p.1 = k <;> simp [mapDelete, List.filter_cons, hp]

theorem mapGet_mapDelete_self {α : Type} (st : List (String × α)) (k : String) :
    mapGet (mapDelete st k) k = none := by
  induction st with
  | nil => rfl
  | cons p ps ih =>
      rw [mapDelete_cons]
      by_cases hp : p.1 = k
      · simpa [hp] using ih
      · simpa [mapGet, hp] using ih

theorem mapGet_mapDelete_ne {α : Type} (st : List (String × α)) (k k' : String)
    (h : k' ≠ k) : mapGet (mapDelete st k) k' = mapGet st k' := by
  induction st with
  | nil => rfl
  | cons p ps ih =>
      rw [mapDelete_cons]
      have hk2 : ¬ k = k' := fun he => h he.symm
      by_cases hp : p.1 = k
      · simp [hp, mapGet, hk2, ih]
      · by_cases hp' : p.1 = k'
        · simp [hp, mapGet, hp', h]
        · simp [hp, mapGet, hp', ih]

theorem mapGet_mapSet_self {α : Type} (st : List (String × α)) (k : String) (v : α) :
    mapGet (mapSet st k v) k = some v := by
  induction st with
  | nil => simp [mapSet, mapGet]
  | cons p ps ih =>
      by_cases h : p.1 = k
      · simp [mapSet, h, mapGet]
      · simp [mapSet, h, mapGet, ih]

theorem mapGet_mapSet_ne {α : Type} (st : List (String × α)) (k k' : String) (v : α)
    (h : k' ≠ k) : mapGet (mapSet st k v) k' = mapGet st k' := by
  have hk : ¬ k = k' := fun he => h he.symm
  induction st with
  | nil => simp [mapSet, mapGet, hk]
  | cons p ps ih =>
      by_cases hp : p.1 = k
      · simp [mapSet, hp, mapGet, hk]
      · simp [mapSet, hp, mapGet, ih]

theorem not_mem_keys_mapDelete {α : Type} (st : List (String × α)) (k : String) :
    k ∉ (mapDelete st k).map (fun p => p.1) := by
  intro hmem
  rcases List.mem_map.mp hmem with ⟨p, hp, hk⟩
  have := List.of_mem_filter hp
  simp only [decide_eq_true_eq] at this
  exact this hk

/-! ### Externally visible effects, in program order -/

/-- One externally visible step of a handler.  `execA` is an `execAsync` of a
shell command (with the outcome the try/catch observed), `spawnA` starts the
long-running child, `killA` is `proc.kill(signal)`, `sendA` is a
`webContents.send` on a channel tagged with a session id, and `setA`,
`deleteA`, `clearA` are the registry mutations. -/
inductive Action where
  | execA (cmd : String) (ok : Bool)
  | spawnA (cmd : String)
  | killA (sessionId : String) (signal : String) (ok : Bool)
  | sendA (channel : String) (sessionId : String)
  | setA (sessionId : String)
  | deleteA (sessionId : String)
  | clearA
deriving DecidableEq, Repr

/-- Result object of the `logs:*` / `portforward:*` handlers
(`{success, error?, forwardId?}`). -/
structure IpcResult where
  success : Bool
  error : Option String
  forwardId : Option String
deriving DecidableEq, Repr

/-! ### Log stream supervisor (`logs:start`, `logs:stop`, exit handler) -/

/-- Registry entry of `logProcesses`: only the process handle, which the
embedding does not need to inspect. -/
abbrev LogState := List (String × Unit)

/-- The exact command `logs:start` passes to `exec` (main.js line 140):
the tail length is hardcoded to 100. -/
def logsCmd (podName nspace : String) : String :=
  "wsl bash -lc \"kubectl logs " ++ podName ++ " -n " ++ nspace ++ " --tail=100 -f\""

/-- Request payload of `logs:start`.  The spec's interface (§6) lists a
`tailLines` input, so the payload record carries it; the handler destructures
only `podName`, `namespace` and `logId` (main.js line 138) and never reads
`tailLines`. -/
structure LogsStartArgs where
  podName : String
  nspace : String
  logId : String
  tailLines : Nat
deriving DecidableEq, Repr

/-- `logs:start` (main.js lines 138–161): spawn the follow command, register
the child under the caller-supplied `logId`, return `{success:true}`. -/
def logsStart (a : LogsStartArgs) (st : LogState) : List Action × LogState × IpcResult :=
  ([Action.spawnA (logsCmd a.podName a.nspace), Action.setA a.logId],
   mapSet st a.logId (), ⟨true, none, none⟩)

/-- `logs:stop` (main.js lines 163–171): if registered, `process.kill()`
(default SIGTERM; `env` is the outcome) then delete and return success;
otherwise return `{success:false, error:'Log process not found'}`. -/
def logsStop (env : Bool) (logId : String) (st : LogState) :
    List Action × LogState × IpcResult :=
  match mapGet st logId with
  | some _ =>
      ([Action.killA logId "SIGTERM" env, Action.deleteA logId],
       mapDelete st logId, ⟨true, none, none⟩)
  | none => ([], st, ⟨false, some "Log process not found", none⟩)

/-- The `child.on('exit')` handler installed by `logs:start` (main.js lines
152–155): send `logs:exit` tagged with the id, then delete the entry. -/
def logsOnExit (logId : String) (st : LogState) : List Action × LogState :=
  ([Action.sendA "logs:exit" logId, Action.deleteA logId], mapDelete st logId)

/-! ### Port-forward supervisor -/

/-- Registry entry of `portForwardProcesses` (main.js lines 239–247), minus
the raw process handle. -/
structure PFEntry where
  resourceType : String
  name : String
  nspace : String
  localPort : Nat
  remotePort : Nat
  startTime : String
deriving DecidableEq, Repr

abbrev PFState := List (String × PFEntry)

structure PFParams where
  resourceType : String
  name : String
  nspace : String
  localPort : Nat
  remotePort : Nat
deriving DecidableEq, Repr

/-- The generated forward id (main.js line 230):
`pf-${resourceType}-${name}-${localPort}-${Date.now()}`. -/
def mkForwardId (resourceType name : String) (localPort now : Nat) : String :=
  "pf-" ++ resourceType ++ "-" ++ name ++ "-" ++ Nat.repr localPort ++ "-" ++ Nat.repr now

/-- The tunnel command (main.js line 231). -/
def pfCmd (p : PFParams) : String :=
  "kubectl port-forward " ++ p.resourceType ++ "/" ++ p.name ++ " -n " ++ p.nspace ++
    " " ++ Nat.repr p.localPort ++ ":" ++ Nat.repr p.remotePort

/-- Whether the `spawn` call itself throws synchronously.  Node reports the
common spawn failures (e.g. missing binary) not by throwing but by emitting
an asynchronous `error` event on the returned handle, which main.js handles
separately (lines 268–274, embedded as `pfOnError`). -/
inductive SpawnOutcome where
  | okS
  | throwsWith (msg : String)
deriving DecidableEq, Repr

/-- `portforward:start` (main.js lines 228–281): build the id from the
parameters and `Date.now()` (`now`), spawn, register, return
`{success:true, forwardId}`; if `spawn` throws synchronously, the catch
returns `{success:false, error}` and nothing was registered. -/
def pfStart (now : Nat) (startTime : String) (sp : SpawnOutcome) (p : PFParams)
    (st : PFState) : List Action × PFState × IpcResult :=
  let fid := mkForwardId p.resourceType p.name p.localPort now
  match sp with
  | SpawnOutcome.throwsWith msg => ([], st, ⟨false, some msg, none⟩)
  | SpawnOutcome.okS =>
      ([Action.spawnA (pfCmd p), Action.setA fid],
       mapSet st fid ⟨p.resourceType, p.name, p.nspace, p.localPort, p.remotePort, startTime⟩,
       ⟨true, none, some fid⟩)

/-- The `child.on('exit')` handler installed by `portforward:start` (main.js
lines 261–266): if the window still exists, send `portforward:exit` tagged
with the id; then delete the entry. -/
def pfOnExit (mw : Bool) (fid : String) (st : PFState) : List Action × PFState :=
  ((if mw then [Action.sendA "portforward:exit" fid] else []) ++ [Action.deleteA fid],
   mapDelete st fid)

/-- The `child.on('error')` handler installed by `portforward:start` (main.js
lines 268–274), which fires when the OS process could not be created: send
`portforward:error` tagged with the id if the window exists, then delete the
entry. -/
def pfOnError (mw : Bool) (fid : String) (st : PFState) : List Action × PFState :=
  ((if mw then [Action.sendA "portforward:error" fid] else []) ++ [Action.deleteA fid],
   mapDelete st fid)

/-- The remote-listener kill command used by `portforward:stop` and
`portforward:stopAll` (main.js lines 289 and 324). -/
def killByPortCmd (port : Nat) : String :=
  "wsl bash -lc \"kill $(lsof -t -i:" ++ Nat.repr port ++ ") 2>/dev/null || true\""

/-- Outcomes of the two teardown steps, observed only through try/catch. -/
structure StopEnv where
  remoteKillOk : Bool
  localKillOk : Bool
deriving DecidableEq, Repr

/-- `portforward:stop` (main.js lines 283–303): if registered, (1) issue the
kill-by-port command in WSL, swallowing failure, (2) `process.kill('SIGKILL')`,
swallowing failure, (3) delete the entry; return success.  Otherwise return
`{success:false, error:'Port forward not found'}`. -/
def pfStop (env : StopEnv) (fid : String) (st : PFState) :
    List Action × PFState × IpcResult :=
  match mapGet st fid with
  | some fw =>
      ([Action.execA (killByPortCmd fw.localPort) env.remoteKillOk,
        Action.killA fid "SIGKILL" env.localKillOk,
        Action.deleteA fid],
       mapDelete st fid, ⟨true, none, none⟩)
  | none => ([], st, ⟨false, some "Port forward not found", none⟩)

/-- `portforward:stopAll` (main.js lines 321–336): for every registered
session in insertion order, attempt the kill-by-port command and the local
`SIGKILL`, each in its own try/catch with an empty catch; then clear the map
and return success. -/
def pfStopAll (env : String → StopEnv) (st : PFState) :
    List Action × PFState × IpcResult :=
  ((st.flatMap fun p =>
      [Action.execA (killByPortCmd p.2.localPort) (env p.1).remoteKillOk,
       Action.killA p.1 "SIGKILL" (env p.1).localKillOk]) ++ [Action.clearA],
   [], ⟨true, none, none⟩)

/-- One row of the `portforward:list` response (main.js lines 305–319). -/
structure PFSummary where
  forwardId : String
  resourceType : String
  name : String
  nspace : String
  localPort : Nat
  remotePort : Nat
  startTime : String
deriving DecidableEq, Repr

/-- `portforward:list`: project every registry entry (all fields except the
raw process handle). -/
def pfList (st : PFState) : List PFSummary :=
  st.map fun p =>
    ⟨p.1, p.2.resourceType, p.2.name, p.2.nspace, p.2.localPort, p.2.remotePort, p.2.startTime⟩

/-- The `before-quit` handler (main.js lines 381–386): a plain
`value.process.kill()` (default SIGTERM) for each port-forward entry, then
`portForwardProcesses.clear()`.  Log processes are not touched. -/
def beforeQuit (env : String → Bool) (lst : LogState) (pst : PFState) :
    List Action × LogState × PFState :=
  (pst.map (fun p => Action.killA p.1 "SIGTERM" (env p.1)) ++ [Action.clearA],
   lst, [])

/-! ### Injectivity of the decimal rendering used inside generated ids

`mkForwardId` interpolates `Date.now()` with `Nat.repr`; to compare ids of
calls made at different timestamps we need `Nat.repr` to be injective, which
we prove by exhibiting a left inverse (the decimal value of the digit
string). -/

/-- Decimal value of a digit-character list, folded from the left onto an
accumulator. -/
def decValChars : List Char → Nat → Nat
  | [], a => a
  | c :: cs, a => decValChars cs (10 * a + (c.toNat - 48))

theorem decValChars_append (l₁ l₂ : List Char) (a : Nat) :
    decValChars (l₁ ++ l₂) a = decValChars l₂ (decValChars l₁ a) := by
  induction l₁ generalizing a with
  | nil => rfl
  | cons c cs ih => simp [decValChars, ih]

theorem digitChar_toNat_sub (d : Nat) (h : d < 10) :
    (Nat.digitChar d).toNat - 48 = d := by
  interval_cases d <;> rfl

theorem toDigitsCore_append10 (fuel : Nat) : ∀ (n : Nat) (ds : List Char),
    Nat.toDigitsCore 10 fuel n ds = Nat.toDigitsCore 10 fuel n [] ++ ds := by
  induction fuel with
  | zero => intro n ds; simp [Nat.toDigitsCore]
  | succ f ih =>
      intro n ds
      by_cases h : n / 10 = 0
      · simp [Nat.toDigitsCore, h]
      · simp only [Nat.toDigitsCore, h, if_false]
        rw [ih (n / 10) (Nat.digitChar (n % 10) :: ds),
            ih (n / 10) [Nat.digitChar (n % 10)]]
        simp

theorem decVal_toDigitsCore10 (fuel : Nat) : ∀ n, n < 10 ^ fuel →
    decValChars (Nat.toDigitsCore 10 fuel n []) 0 = n := by
  induction fuel with
  | zero =>
      intro n hn
      have : n = 0 := by simpa using Nat.lt_one_iff.mp (by simpa using hn)
      subst this; rfl
  | succ f ih =>
      intro n hn
      by_cases h : n / 10 = 0
      · have hn10 : n < 10 := by omega
        simp only [Nat.toDigitsCore, h, if_pos]
        simp [decValChars, digitChar_toNat_sub (n % 10) (Nat.mod_lt n (by norm_num))]
        omega
      · have hdiv : n / 10 < 10 ^ f := by
          have hlt : n < 10 ^ f * 10 := by
            have : 10 ^ (f + 1) = 10 ^ f * 10 := by ring
            omega
          exact (Nat.div_lt_iff_lt_mul (by norm_num)).mpr hlt
        simp only [Nat.toDigitsCore, h, if_false]
        rw [toDigitsCore_append10, decValChars_append, ih (n / 10) hdiv]
        simp [decValChars, digitChar_toNat_sub (n % 10) (Nat.mod_lt n (by norm_num))]
        omega

theorem natRepr_inj {m n : Nat} (h : Nat.repr m = Nat.repr n) : m = n := by
  have hdata : Nat.toDigitsCore 10 (m + 1) m [] = Nat.toDigitsCore 10 (n + 1) n [] := by
    simpa [Nat.repr, Nat.toDigits, List.asString] using congrArg String.data h
  have hm : m < 10 ^ (m + 1) :=
    lt_trans (Nat.lt_succ_self m) (Nat.lt_pow_self (by norm_num) (m + 1))
  have hn : n < 10 ^ (n + 1) :=
    lt_trans (Nat.lt_succ_self n) (Nat.lt_pow_self (by norm_num) (n + 1))
  calc m = decValChars (Nat.toDigitsCore 10 (m + 1) m []) 0 :=
        (decVal_toDigitsCore10 (m + 1) m hm).symm
    _ = decValChars (Nat.toDigitsCore 10 (n + 1) n []) 0 := by rw [hdata]
    _ = n := decVal_toDigitsCore10 (n + 1) n hn

theorem natRepr_ne {m n : Nat} (h : m ≠ n) : Nat.repr m ≠ Nat.repr n :=
  fun he => h (natRepr_inj he)

theorem string_append_right_ne (s : String) {a b : String} (h : a ≠ b) :
    s ++ a ≠ s ++ b := by
  intro he
  apply h
  apply String.ext
  have := congrArg String.data he
  simp only [String.data_append] at this
  exact List.append_cancel_left this

/-! ### JS string primitives used by `portforward:checkPort` -/

/-- The whitespace class relevant to `String.prototype.trim` and the
`/\s+/` regex on `lsof` output. -/
def isWsChar (c : Char) : Bool :=
  c = ' ' ∨ c = '\t' ∨ c = '\n' ∨ c = '\r'

/-- `stdout.trim()`. -/
def jsTrim (s : String) : String :=
  String.mk (((s.data.dropWhile isWsChar).reverse.dropWhile isWsChar).reverse)

/-- Worker for `line.split(/\s+/)`: `acc` holds the current piece reversed,
`skipping` records that we are inside a separator run whose preceding piece
has already been emitted (a regex match is a maximal whitespace run, so
consecutive whitespace yields one separator, while leading or trailing
whitespace yields an empty piece, as in JS). -/
def splitWsAux : List Char → List Char → Bool → List String
  | [], acc, _ => [String.mk acc.reverse]
  | c :: cs, acc, skipping =>
      if isWsChar c then
        if skipping then splitWsAux cs acc true
        else String.mk acc.reverse :: splitWsAux cs [] true
      else splitWsAux cs (c :: acc) false

/-- `line.split(/\s+/)` (main.js line 350). -/
def jsSplitWs (s : String) : List String :=
  splitWsAux s.data [] false

/-- Longest digit prefix, accumulated; the tail after the first non-digit is
ignored, as in JS `parseInt`. -/
def digitsPrefixVal : List Char → Nat → Nat
  | [], a => a
  | c :: cs, a => if c.isDigit then digitsPrefixVal cs (10 * a + (c.toNat - 48)) else a

/-- `parseInt(s, 10)`: skip leading whitespace, accept an optional sign, then
require at least one digit and take the value of the longest digit prefix;
`none` models `NaN`. -/
def jsParseInt (s : String) : Option Int :=
  match s.data.dropWhile isWsChar with
  | '-' :: rest =>
      if rest.head?.elim false Char.isDigit
      then some (-(digitsPrefixVal rest 0 : Int)) else none
  | '+' :: rest =>
      if rest.head?.elim false Char.isDigit
      then some (digitsPrefixVal rest 0 : Int) else none
  | l =>
      if l.head?.elim false Char.isDigit
      then some (digitsPrefixVal l 0 : Int) else none

/-- Response of `portforward:checkPort`
(`{success, inUse, pid?, processName?}`). -/
structure CheckPortResult where
  success : Bool
  inUse : Bool
  pid : Option Int
  processName : Option String
deriving DecidableEq, Repr

/-- The probe command (main.js line 342): at most one listener line survives
the `tail -n +2 | head -1` pipeline. -/
def checkPortCmd (port : Nat) : String :=
  "wsl bash -lc \"lsof -i :" ++ Nat.repr port ++
    " -sTCP:LISTEN 2>/dev/null | tail -n +2 | head -1\""

/-- `portforward:checkPort` (main.js lines 339–368), as a function of the
probe command's outcome: `none` when `execAsync` threw (caught: the port is
reported free), `some stdout` otherwise. -/
def checkPort (queryOut : Option String) : CheckPortResult :=
  match queryOut with
  | none => ⟨true, false, none, none⟩
  | some stdout =>
      let line := jsTrim stdout
      if line = "" then ⟨true, false, none, none⟩
      else
        let parts := jsSplitWs line
        let processName :=
          match parts.head? with
          | some p => if p = "" then "unknown" else p
          | none => "unknown"
        match parts[1]? with
        | none => ⟨true, false, none, none⟩
        | some f =>
            match jsParseInt f with
            | none => ⟨true, false, none, none⟩
            | some pid => ⟨true, true, some pid, some processName⟩

/-! ### Concrete data reused by witnesses and counterexamples -/

def sampleEntry : PFEntry := ⟨"service", "web", "default", 8080, 80, "t0"⟩

def sampleEntry2 : PFEntry := ⟨"pod", "db", "prod", 9090, 5432, "t1"⟩

def sampleParams : PFParams := ⟨"service", "web", "default", 8080, 80⟩

/-- An environment in which session `p1`'s remote-kill step fails. -/
def failP1Env : String → StopEnv :=
  fun fid => if fid = "p1" then ⟨false, true⟩ else ⟨true, true⟩

/-! ### The claims -/

/-- C1: for every registered port-forward session, `portforward:stop`
performs, in order, (1) the best-effort kill of whatever listens on the
session's recorded `localPort` inside WSL, (2) the forcible `SIGKILL` of the
local process handle, and (3) the removal of the session from the registry.
The trace, final registry and result are the same for every outcome `env` of
the two kill steps (their failures are swallowed), and the entry is gone
afterwards. -/
theorem C1_pfStop_two_step_teardown (env : StopEnv) (st : PFState) (fid : String)
    (fw : PFEntry) (h : mapGet st fid = some fw) :
    pfStop env fid st =
      ([Action.execA (killByPortCmd fw.localPort) env.remoteKillOk,
        Action.killA fid "SIGKILL" env.localKillOk,
        Action.deleteA fid],
       mapDelete st fid, ⟨true, none, none⟩) ∧
    mapGet (pfStop env fid st).2.1 fid = none := by
  constructor
  · simp [pfStop, h]
  · simp [pfStop, h, mapGet_mapDelete_self]

theorem C1_witness :
    pfStop ⟨false, true⟩ "p1" [("p1", sampleEntry)] =
      ([Action.execA (killByPortCmd sampleEntry.localPort) false,
        Action.killA "p1" "SIGKILL" true,
        Action.deleteA "p1"],
       mapDelete [("p1", sampleEntry)] "p1", ⟨true, none, none⟩) ∧
    mapGet (pfStop ⟨false, true⟩ "p1" [("p1", sampleEntry)]).2.1 "p1" = none :=
  C1_pfStop_two_step_teardown ⟨false, true⟩ [("p1", sampleEntry)] "p1" sampleEntry rfl

/-- C2: `portforward:stopAll` attempts the remote-listener kill and the local
`SIGKILL` for every registered session — whatever the outcome `env` assigns
to each individual step — and afterwards the registry is empty and the call
reports success. -/
theorem C2_pfStopAll_clears_all (env : String → StopEnv) (st : PFState) :
    (pfStopAll env st).2.1 = [] ∧
    (pfStopAll env st).2.2 = ⟨true, none, none⟩ ∧
    ∀ p, p ∈ st →
      Action.execA (killByPortCmd p.2.localPort) (env p.1).remoteKillOk ∈
          (pfStopAll env st).1 ∧
      Action.killA p.1 "SIGKILL" (env p.1).localKillOk ∈ (pfStopAll env st).1 := by
  refine ⟨rfl, rfl, ?_⟩
  intro p hp
  constructor
  · exact List.mem_append_left _ (List.mem_flatMap.mpr ⟨p, hp, by simp⟩)
  · exact List.mem_append_left _ (List.mem_flatMap.mpr ⟨p, hp, by simp⟩)

theorem C2_witness :
    (pfStopAll failP1Env [("p1", sampleEntry), ("p2", sampleEntry2)]).2.1 = [] ∧
    Action.execA (killByPortCmd sampleEntry2.localPort) true ∈
        (pfStopAll failP1Env [("p1", sampleEntry), ("p2", sampleEntry2)]).1 ∧
    Action.killA "p1" "SIGKILL" true ∈
        (pfStopAll failP1Env [("p1", sampleEntry), ("p2", sampleEntry2)]).1 := by
  refine ⟨(C2_pfStopAll_clears_all failP1Env [("p1", sampleEntry), ("p2", sampleEntry2)]).1,
    ?_, ?_⟩
  · have h := ((C2_pfStopAll_clears_all failP1Env
        [("p1", sampleEntry), ("p2", sampleEntry2)]).2.2 ("p2", sampleEntry2) (by simp)).1
    simpa [failP1Env] using h
  · have h := ((C2_pfStopAll_clears_all failP1Env
        [("p1", sampleEntry), ("p2", sampleEntry2)]).2.2 ("p1", sampleEntry) (by simp)).2
    simpa [failP1Env] using h

/-- C3 counterexample: two `portforward:start` calls with identical
parameters within the same `Date.now()` millisecond (here 1000) return the
same `forwardId`, and the second registration overwrites the first, leaving
a single registry entry — so start calls do not always produce pairwise
distinct ids. -/
theorem C3_counterexample :
    (pfStart 1000 "t0" SpawnOutcome.okS sampleParams
        (pfStart 1000 "t0" SpawnOutcome.okS sampleParams []).2.1).2.2.forwardId =
      (pfStart 1000 "t0" SpawnOutcome.okS sampleParams []).2.2.forwardId ∧
    (pfStart 1000 "t0" SpawnOutcome.okS sampleParams
        (pfStart 1000 "t0" SpawnOutcome.okS sampleParams []).2.1).2.1 =
      [(mkForwardId "service" "web" 8080 1000,
        ⟨"service", "web", "default", 8080, 80, "t0"⟩)] := by
  exact ⟨rfl, by decide⟩

/-- C3 amended: `portforward:start` ids embed the call's parameters and the
`Date.now()` millisecond, so two calls with the same parameters made at
distinct timestamps return distinct ids (calls with identical parameters in
the same millisecond collide, and the second registration overwrites the
first); log-session ids are not generated at all — `logs:start` registers
under exactly the caller-supplied `logId`, so their distinctness is the
caller's responsibility. -/
theorem C3_amended_ids (rt nm ns stime : String) (lp rp t₁ t₂ : Nat)
    (st₁ st₂ : PFState) (h : t₁ ≠ t₂) :
    (pfStart t₁ stime SpawnOutcome.okS ⟨rt, nm, ns, lp, rp⟩ st₁).2.2.forwardId ≠
      (pfStart t₂ stime SpawnOutcome.okS ⟨rt, nm, ns, lp, rp⟩ st₂).2.2.forwardId ∧
    ∀ (a : LogsStartArgs) (st : LogState),
      mapGet (logsStart a st).2.1 a.logId = some () := by
  constructor
  · intro he
    have h2 : mkForwardId rt nm lp t₁ = mkForwardId rt nm lp t₂ := by
      simpa [pfStart] using he
    simp only [mkForwardId] at h2
    exact string_append_right_ne _ (natRepr_ne h) h2
  · intro a st
    exact mapGet_mapSet_self st a.logId ()

theorem C3_amended_witness :
    ((pfStart 1 "t0" SpawnOutcome.okS sampleParams []).2.2.forwardId ≠
      (pfStart 2 "t0" SpawnOutcome.okS sampleParams []).2.2.forwardId) ∧
    mapGet (logsStart ⟨"pod-a", "default", "l1", 100⟩ []).2.1 "l1" = some () := by
  have h := C3_amended_ids "service" "web" "default" "t0" 8080 80 1 2 [] [] (by decide)
  exact ⟨h.1, h.2 ⟨"pod-a", "default", "l1", 100⟩ []⟩

/-- C4 counterexample: Node reports the ordinary spawn failures (missing
binary and the like) through the child's asynchronous `error` event, not by
throwing from `spawn` — which is why main.js installs an `error` handler
that deletes the entry (lines 268–274).  On that path `portforward:start`
returns `{success:true}` and the session *is* registered, and is only
invalidated later when the error event fires: insert-then-invalidate, with
no synchronous error result. -/
theorem C4_counterexample :
    (pfStart 0 "t0" SpawnOutcome.okS sampleParams []).2.2.success = true ∧
    mapGet (pfStart 0 "t0" SpawnOutcome.okS sampleParams []).2.1
        (mkForwardId "service" "web" 8080 0) =
      some ⟨"service", "web", "default", 8080, 80, "t0"⟩ ∧
    (pfOnError true (mkForwardId "service" "web" 8080 0)
        (pfStart 0 "t0" SpawnOutcome.okS sampleParams []).2.1).2 = [] := by
  refine ⟨rfl, by decide, by decide⟩

/-- C4 amended: if `spawn` throws synchronously, the failure is returned
synchronously and no session was ever registered (the `set` follows the
`spawn` in program order); if `spawn` returns a handle, the call reports
success and registers the session, and a spawn failure surfaced through the
asynchronous `error` event removes the already-registered entry
(insert-then-invalidate). -/
theorem C4_amended_spawn_paths (now : Nat) (stime msg : String) (p : PFParams)
    (st : PFState) (mw : Bool) (fid : String) (st' : PFState) :
    pfStart now stime (SpawnOutcome.throwsWith msg) p st =
      ([], st, ⟨false, some msg, none⟩) ∧
    (pfStart now stime SpawnOutcome.okS p st).2.2 =
      ⟨true, none, some (mkForwardId p.resourceType p.name p.localPort now)⟩ ∧
    mapGet (pfStart now stime SpawnOutcome.okS p st).2.1
        (mkForwardId p.resourceType p.name p.localPort now) =
      some ⟨p.resourceType, p.name, p.nspace, p.localPort, p.remotePort, stime⟩ ∧
    mapGet (pfOnError mw fid st').2 fid = none := by
  refine ⟨rfl, rfl, ?_, ?_⟩
  · exact mapGet_mapSet_self st _ _
  · exact mapGet_mapDelete_self st' fid

/-- C5: when a log-stream or port-forward process exits (with the subscriber
window present, `mw = true`), the handler pushes the terminal exit event
tagged with the session's id and *then* deletes the registry entry — the
event precedes the removal in the trace — after which `get` returns nothing
and `portforward:list` no longer contains the id. -/
theorem C5_exit_event_then_removal (logId fid : String) (lst : LogState)
    (pst : PFState) (mw : Bool) (hmw : mw = true) :
    logsOnExit logId lst =
      ([Action.sendA "logs:exit" logId, Action.deleteA logId], mapDelete lst logId) ∧
    mapGet (logsOnExit logId lst).2 logId = none ∧
    pfOnExit mw fid pst =
      ([Action.sendA "portforward:exit" fid, Action.deleteA fid], mapDelete pst fid) ∧
    mapGet (pfOnExit mw fid pst).2 fid = none ∧
    fid ∉ (pfList (pfOnExit mw fid pst).2).map PFSummary.forwardId := by
  subst hmw
  refine ⟨rfl, mapGet_mapDelete_self lst logId, rfl,
    mapGet_mapDelete_self pst fid, ?_⟩
  intro hmem
  have hk : fid ∈ (mapDelete pst fid).map (fun p => p.1) := by
    simpa [pfOnExit, pfList, List.map_map, Function.comp] using hmem
  exact not_mem_keys_mapDelete pst fid hk

theorem C5_witness :
    logsOnExit "l1" [("l1", ())] =
      ([Action.sendA "logs:exit" "l1", Action.deleteA "l1"],
       mapDelete [("l1", ())] "l1") ∧
    mapGet (logsOnExit "l1" [("l1", ())]).2 "l1" = none ∧
    pfOnExit true "p1" [("p1", sampleEntry)] =
      ([Action.sendA "portforward:exit" "p1", Action.deleteA "p1"],
       mapDelete [("p1", sampleEntry)] "p1") ∧
    mapGet (pfOnExit true "p1" [("p1", sampleEntry)]).2 "p1" = none ∧
    "p1" ∉ (pfList (pfOnExit true "p1" [("p1", sampleEntry)]).2).map PFSummary.forwardId :=
  C5_exit_event_then_removal "l1" "p1" [("l1", ())] [("p1", sampleEntry)] true rfl

/-- C6: `stop` is idempotent for both kinds.  On a registered id the first
call succeeds; the immediately repeated call finds nothing, performs no
action (empty trace), returns the NotFound-style `{success:false, error}`
result — never an exception, since the handlers are total — and leaves the
registry exactly as it was; moreover the first call never touches any other
session's entry. -/
theorem C6_stop_idempotent (envL envL2 : Bool) (env1 env2 : StopEnv)
    (lst : LogState) (pst : PFState) (lid fid : String) (fw : PFEntry)
    (hl : mapGet lst lid = some ()) (hp : mapGet pst fid = some fw) :
    (logsStop envL lid lst).2.2.success = true ∧
    logsStop envL2 lid (logsStop envL lid lst).2.1 =
      ([], (logsStop envL lid lst).2.1, ⟨false, some "Log process not found", none⟩) ∧
    (∀ k, k ≠ lid → mapGet (logsStop envL lid lst).2.1 k = mapGet lst k) ∧
    (pfStop env1 fid pst).2.2.success = true ∧
    pfStop env2 fid (pfStop env1 fid pst).2.1 =
      ([], (pfStop env1 fid pst).2.1, ⟨false, some "Port forward not found", none⟩) ∧
    (∀ k, k ≠ fid → mapGet (pfStop env1 fid pst).2.1 k = mapGet pst k) := by
  refine ⟨?_, ?_, ?_, ?_, ?_, ?_⟩
  · simp [logsStop, hl]
  · simp [logsStop, hl, mapGet_mapDelete_self]
  · intro k hk; simp [logsStop, hl, mapGet_mapDelete_ne lst lid k hk]
  · simp [pfStop, hp]
  · simp [pfStop, hp, mapGet_mapDelete_self]
  · intro k hk; simp [pfStop, hp, mapGet_mapDelete_ne pst fid k hk]

theorem C6_witness :
    (logsStop true "l1" [("l1", ()), ("l2", ())]).2.2.success = true ∧
    logsStop true "l1" (logsStop true "l1" [("l1", ()), ("l2", ())]).2.1 =
      ([], (logsStop true "l1" [("l1", ()), ("l2", ())]).2.1,
       ⟨false, some "Log process not found", none⟩) ∧
    mapGet (logsStop true "l1" [("l1", ()), ("l2", ())]).2.1 "l2" =
      mapGet [("l1", ()), ("l2", ())] "l2" ∧
    (pfStop ⟨true, true⟩ "p1" [("p1", sampleEntry)]).2.2.success = true ∧
    pfStop ⟨false, false⟩ "p1" (pfStop ⟨true, true⟩ "p1" [("p1", sampleEntry)]).2.1 =
      ([], (pfStop ⟨true, true⟩ "p1" [("p1", sampleEntry)]).2.1,
       ⟨false, some "Port forward not found", none⟩) ∧
    mapGet (pfStop ⟨true, true⟩ "p1" [("p1", sampleEntry)]).2.1 "p9" =
      mapGet [("p1", sampleEntry)] "p9" := by
  have h := C6_stop_idempotent true true ⟨true, true⟩ ⟨false, false⟩
      [("l1", ()), ("l2", ())] [("p1", sampleEntry)] "l1" "p1" sampleEntry
      (by decide) (by decide)
  exact ⟨h.1, h.2.1, h.2.2.1 "l2" (by decide), h.2.2.2.1, h.2.2.2.2.1,
    h.2.2.2.2.2 "p9" (by decide)⟩

/-- C7: log sessions are multiplexed purely by id.  `logs:start` spawns and
registers under its own id without touching any other id's entry and without
emitting any kill or delete for another session; `logs:stop l1` changes no
entry other than `l1`'s and emits no event tagged with a different id `l2`;
and `logs:stop l2` still succeeds after `l1` was stopped. -/
theorem C7_log_independence (a : LogsStartArgs) (lst : LogState) (l1 l2 : String)
    (env env2 : Bool) (h12 : l2 ≠ l1) (hl2 : mapGet lst l2 = some ()) :
    (∀ k, k ≠ a.logId → mapGet (logsStart a lst).2.1 k = mapGet lst k) ∧
    (logsStart a lst).1 =
      [Action.spawnA (logsCmd a.podName a.nspace), Action.setA a.logId] ∧
    (∀ k, k ≠ l1 → mapGet (logsStop env l1 lst).2.1 k = mapGet lst k) ∧
    (∀ ch, Action.sendA ch l2 ∉ (logsStop env l1 lst).1) ∧
    (logsStop env2 l2 (logsStop env l1 lst).2.1).2.2.success = true := by
  refine ⟨?_, rfl, ?_, ?_, ?_⟩
  · intro k hk
    simpa [logsStart] using mapGet_mapSet_ne lst a.logId k () hk
  · intro k hk
    cases hgl : mapGet lst l1 with
    | some u => simp [logsStop, hgl, mapGet_mapDelete_ne lst l1 k hk]
    | none => simp [logsStop, hgl]
  · intro ch
    cases hgl : mapGet lst l1 with
    | some u => simp [logsStop, hgl]
    | none => simp [logsStop, hgl]
  · cases hgl : mapGet lst l1 with
    | some u =>
        have hfr : mapGet (mapDelete lst l1) l2 = some () := by
          rw [mapGet_mapDelete_ne lst l1 l2 h12]; exact hl2
        simp [logsStop, hgl, hfr]
    | none => simp [logsStop, hgl, hl2]

theorem C7_witness :
    mapGet (logsStart ⟨"pod-b", "default", "l3", 100⟩ [("l1", ()), ("l2", ())]).2.1 "l2" =
      mapGet [("l1", ()), ("l2", ())] "l2" ∧
    (logsStart ⟨"pod-b", "default", "l3", 100⟩ [("l1", ()), ("l2", ())]).1 =
      [Action.spawnA (logsCmd "pod-b" "default"), Action.setA "l3"] ∧
    mapGet (logsStop true "l1" [("l1", ()), ("l2", ())]).2.1 "l2" =
      mapGet [("l1", ()), ("l2", ())] "l2" ∧
    Action.sendA "logs:exit" "l2" ∉ (logsStop true "l1" [("l1", ()), ("l2", ())]).1 ∧
    (logsStop true "l2" (logsStop true "l1" [("l1", ()), ("l2", ())]).2.1).2.2.success =
      true := by
  have h := C7_log_independence ⟨"pod-b", "default", "l3", 100⟩
      [("l1", ()), ("l2", ())] "l1" "l2" true true (by decide) (by decide)
  exact ⟨h.1 "l2" (by decide), h.2.1, h.2.2.1 "l2" (by decide),
    h.2.2.2.1 "logs:exit", h.2.2.2.2⟩

/-- C8: `portforward:checkPort` always reports `success` (a throwing probe
is mapped to `{inUse:false}`); it answers `{inUse:false}` when the probe
output trims to nothing, when there is no second whitespace-separated field,
or when that field does not parse as a number; and otherwise it answers
`{inUse:true}` with `pid` the numeric parse of the second field and
`processName` the first field of the probe's single output line. -/
theorem C8_checkPort_spec (q : Option String) (s : String) :
    (checkPort q).success = true ∧
    checkPort none = ⟨true, false, none, none⟩ ∧
    (jsTrim s = "" → checkPort (some s) = ⟨true, false, none, none⟩) ∧
    ((jsSplitWs (jsTrim s))[1]? = none →
      checkPort (some s) = ⟨true, false, none, none⟩) ∧
    (∀ f, (jsSplitWs (jsTrim s))[1]? = some f → jsParseInt f = none →
      checkPort (some s) = ⟨true, false, none, none⟩) ∧
    (∀ nm ps f pid, jsTrim s ≠ "" → jsSplitWs (jsTrim s) = nm :: ps → nm ≠ "" →
      (jsSplitWs (jsTrim s))[1]? = some f → jsParseInt f = some pid →
      checkPort (some s) = ⟨true, true, some pid, some nm⟩) := by
  refine ⟨?_, rfl, ?_, ?_, ?_, ?_⟩
  · cases q with
    | none => rfl
    | some s' =>
        simp only [checkPort]
        split
        · rfl
        · split
          · rfl
          · split
            · rfl
            · rfl
  · intro ht
    simp [checkPort, ht]
  · intro h4
    by_cases ht : jsTrim s = ""
    · simp [checkPort, ht]
    · simp [checkPort, ht, h4]
  · intro f h5a h5b
    by_cases ht : jsTrim s = ""
    · simp [checkPort, ht]
    · simp [checkPort, ht, h5a, h5b]
  · intro nm ps f pid ht hsplit hnm hf hpid
    rw [hsplit] at hf
    simp [checkPort, ht, hsplit, hf, hpid, hnm]

theorem C8_witness :
    (checkPort (some "node 1234 listening")).success = true ∧
    checkPort none = ⟨true, false, none, none⟩ ∧
    checkPort (some " \n ") = ⟨true, false, none, none⟩ ∧
    checkPort (some "node abc listening") = ⟨true, false, none, none⟩ ∧
    checkPort (some "node 1234 listening") = ⟨true, true, some 1234, some "node"⟩ := by
  have h1 := C8_checkPort_spec (some "node 1234 listening") "node 1234 listening"
  have h3 := C8_checkPort_spec (some "node abc listening") "node abc listening"
  have h2 := C8_checkPort_spec (some " \n ") " \n "
  exact ⟨h1.1, h1.2.1, h2.2.2.1 (by decide),
    h3.2.2.2.2.1 "abc" (by decide) (by decide),
    h1.2.2.2.2.2 "node" ["1234", "listening"] "1234" 1234 (by decide) (by decide)
      (by decide) (by decide) (by decide)⟩

/-- C9 counterexample: on `before-quit` with one live log session and one
live port-forward session, the app sends a single plain `SIGTERM` to the
port-forward's local handle and clears that registry — there is no `execA`
(no remote-listener kill, so no two-step teardown) and the log session is
neither stopped nor removed. -/
theorem C9_counterexample :
    beforeQuit (fun _ => true) [("l1", ())] [("p1", sampleEntry)] =
      ([Action.killA "p1" "SIGTERM" true, Action.clearA], [("l1", ())], []) := by
  rfl

/-- C9 amended: on application termination only the port-forward registry is
torn down, and only with a single default-signal (`SIGTERM`) kill of each
local process handle followed by a registry clear: no remote-listener kill
command is ever issued (so not the two-step `portforward:stop` logic), and
log-stream sessions are left untouched. -/
theorem C9_amended_beforeQuit (env : String → Bool) (lst : LogState) (pst : PFState) :
    (beforeQuit env lst pst).2.1 = lst ∧
    (beforeQuit env lst pst).2.2 = [] ∧
    (∀ p, p ∈ pst →
      Action.killA p.1 "SIGTERM" (env p.1) ∈ (beforeQuit env lst pst).1) ∧
    (∀ cmd ok, Action.execA cmd ok ∉ (beforeQuit env lst pst).1) ∧
    (∀ sid sg ok, Action.killA sid sg ok ∈ (beforeQuit env lst pst).1 →
      sg = "SIGTERM") := by
  refine ⟨rfl, rfl, ?_, ?_, ?_⟩
  · intro p hp
    exact List.mem_append_left _ (List.mem_map.mpr ⟨p, hp, rfl⟩)
  · intro cmd ok hmem
    rcases List.mem_append.mp hmem with hm | hm
    · rcases List.mem_map.mp hm with ⟨p, _, he⟩
      exact Action.noConfusion he
    · simp at hm
  · intro sid sg ok hmem
    rcases List.mem_append.mp hmem with hm | hm
    · rcases List.mem_map.mp hm with ⟨p, _, he⟩
      injection he with h1 h2 h3
      exact h2.symm
    · simp at hm

theorem C9_witness :
    (beforeQuit (fun _ => true) [("l1", ())] [("p1", sampleEntry)]).2.1 =
      [("l1", ())] ∧
    (beforeQuit (fun _ => true) [("l1", ())] [("p1", sampleEntry)]).2.2 = [] ∧
    Action.killA "p1" "SIGTERM" true ∈
      (beforeQuit (fun _ => true) [("l1", ())] [("p1", sampleEntry)]).1 ∧
    Action.execA (killByPortCmd 8080) true ∉
      (beforeQuit (fun _ => true) [("l1", ())] [("p1", sampleEntry)]).1 := by
  have h := C9_amended_beforeQuit (fun _ => true) [("l1", ())] [("p1", sampleEntry)]
  exact ⟨h.1, h.2.1, h.2.2.1 ("p1", sampleEntry) (by simp),
    h.2.2.2.1 (killByPortCmd 8080) true⟩

/-- C10: `logs:start` builds its spawn command with a hardcoded `--tail=100`;
a caller-supplied `tailLines` value has no effect whatsoever — two requests
differing only in `tailLines` produce identical traces, registries and
results. -/
theorem C10_tailLines_ignored (pod ns lid : String) (t₁ t₂ : Nat) (lst : LogState) :
    logsStart ⟨pod, ns, lid, t₁⟩ lst = logsStart ⟨pod, ns, lid, t₂⟩ lst ∧
    (logsStart ⟨pod, ns, lid, t₁⟩ lst).1 =
      [Action.spawnA ("wsl bash -lc \"kubectl logs " ++ pod ++ " -n " ++ ns ++
        " --tail=100 -f\""), Action.setA lid] :=
  ⟨rfl, rfl⟩

end Rickube
